import Mathlib

/-!
# Verification of the placement logic of the shirt mockup generator

Shallow embedding of `src/mockup_generator.py`.  Python float arithmetic is
modelled exactly over `ℚ`; Python `int(...)` (truncation toward zero) is
modelled by `ratTrunc`, Python `//` (floor division) by `Int.fdiv`.
Images are rasters of 8-bit RGBA pixels, modelled as lists of rows of
pixels with `ℕ` channels (validity `≤ 255` stated where needed).
-/

namespace Mockup

/-- Python `int(q)` on a real value: truncation toward zero. -/
def ratTrunc (q : ℚ) : ℤ :=
  if q < 0 then -⌊-q⌋ else ⌊q⌋

/-- A bounding box as returned by `cv2.boundingRect`: x, y, width, height
(all non-negative machine integers). -/
structure Bbox where
  x : ℕ
  y : ℕ
  w : ℕ
  h : ℕ
deriving DecidableEq, Repr

/-- Line 150 / 101: `scale = min(sw / design.width, sh / design.height, 1.0) * padding_ratio`. -/
def scaleFor (dw dh : ℕ) (b : Bbox) (p : ℚ) : ℚ :=
  min (min ((b.w : ℚ) / (dw : ℚ)) ((b.h : ℚ) / (dh : ℚ))) 1 * p

/-- Line 154 / 105: `y_offset = int(sh * offset_pct / 100)`. -/
def yOffsetOf (sh : ℕ) (offsetPct : ℤ) : ℤ :=
  ratTrunc (((sh : ℚ) * (offsetPct : ℚ)) / 100)

/-- Result of the placement computation: top-left corner and resized
design dimensions. -/
structure Placement where
  x : ℤ
  y : ℤ
  w : ℤ
  h : ℤ
deriving DecidableEq, Repr

/-- Lines 149-156 (batch loop) and 100-107 (live preview): placement of a
`dw × dh` design inside a detected box `b`, with padding ratio `p` and
vertical offset percentage `offsetPct`:
`new_width = int(design.width * scale)`, `new_height = int(design.height * scale)`,
`x = sx + (sw - new_width) // 2`, `y = sy + y_offset`. -/
def placeWithBox (dw dh : ℕ) (b : Bbox) (p : ℚ) (offsetPct : ℤ) : Placement :=
  let scale := scaleFor dw dh b p
  let newWidth := ratTrunc ((dw : ℚ) * scale)
  let newHeight := ratTrunc ((dh : ℚ) * scale)
  { x := (b.x : ℤ) + Int.fdiv ((b.w : ℤ) - newWidth) 2
    y := (b.y : ℤ) + yOffsetOf b.h offsetPct
    w := newWidth
    h := newHeight }

/-- Lines 157-160 / 108-111: fallback when no box was detected — design kept
at its original size, centered on the (possibly resized) shirt canvas:
`x = (shirt.width - design.width) // 2`, `y = (shirt.height - design.height) // 2`. -/
def placeFallback (dw dh sw sh : ℕ) : Placement :=
  { x := Int.fdiv ((sw : ℤ) - (dw : ℤ)) 2
    y := Int.fdiv ((sh : ℤ) - (dh : ℤ)) 2
    w := (dw : ℤ)
    h := (dh : ℤ) }

/-- Substring test on character lists, as the Python expression `needle in hay`. -/
def hasSubstr (needle : List Char) : List Char → Bool
  | [] => needle.isEmpty
  | c :: rest => needle.isPrefixOf (c :: rest) || hasSubstr needle rest

/-- The Python method `str.lower()` on one character, restricted to ASCII (upload
filenames); maps `A`-`Z` to `a`-`z` and leaves other characters unchanged. -/
def asciiLower (c : Char) : Char :=
  if 'A' ≤ c ∧ c ≤ 'Z' then Char.ofNat (c.toNat + 32) else c

/-- Line 143 / 94: `is_model = "model" in shirt_file.name.lower()`. -/
def isModel (name : String) : Bool :=
  hasSubstr "model".toList (name.toList.map asciiLower)

/-- Line 144 / 95: `offset_pct = model_offset_pct if is_model else plain_offset_pct`. -/
def selectedOffset (name : String) (modelOff plainOff : ℤ) : ℤ :=
  if isModel name then modelOff else plainOff

/-- Line 145 / 96: `padding_ratio = model_padding_ratio if is_model else plain_padding_ratio`. -/
def selectedPadding (name : String) (modelPad plainPad : ℚ) : ℚ :=
  if isModel name then modelPad else plainPad

/-- A contour as produced by `cv2.findContours`, abstracted to the two
attributes the code reads from it: its area (`cv2.contourArea`) and its
axis-aligned bounding rectangle (`cv2.boundingRect`). -/
structure Contour where
  area : ℚ
  rect : Bbox
deriving DecidableEq, Repr

/-- The Python call `max(contours, key=cv2.contourArea)`: the first contour of
maximal area (Python `max` keeps the current maximum on ties). -/
def argmaxContour : List Contour → Option Contour
  | [] => none
  | c :: cs => some (cs.foldl (fun best d => if best.area < d.area then d else best) c)

/-- Line 72: `bbox = cv2.boundingRect(max(contours, key=cv2.contourArea)) if contours else None`.
The upstream pipeline (grayscale, blur, threshold, `findContours`) is pure
image processing producing the contour list; the own logic of the detector starts
from that list. -/
def detectBbox (cs : List Contour) : Option Bbox :=
  (argmaxContour cs).map (·.rect)

/-- Lines 62-75, `get_shirt_bbox_cached`: a session cache maps shirt
filenames to previously computed (possibly absent) bounding boxes; on hit
the cached value is returned unchanged, on miss the detection pipeline
`detect` runs on the uploaded bytes and the result is stored.  `detect`
abstracts the byte-decoding and contour pipeline of lines 66-72. -/
def getShirtBboxCached {β : Type} (cache : List (String × Option Bbox))
    (detect : β → Option Bbox) (shirtBytes : β) (shirtName : String) :
    Option Bbox × List (String × Option Bbox) :=
  match cache.find? (fun kv => kv.1 == shirtName) with
  | some kv => (kv.2, cache)
  | none =>
    let bbox := detect shirtBytes
    (bbox, (shirtName, bbox) :: cache)

/-- An 8-bit RGBA pixel; channel validity (`≤ 255`) is stated separately. -/
structure Pixel where
  r : ℕ
  g : ℕ
  b : ℕ
  a : ℕ
deriving DecidableEq, Repr

/-- A raster image: a list of rows of pixels. -/
abbrev Img := List (List Pixel)

/-- The Pillow macro `MULDIV255(a, b)`: exact 8-bit scaling
`((a*b+128) >> 8 + (a*b+128)) >> 8`, used by `Image.paste` blending. -/
def mulDiv255 (a b : ℕ) : ℕ :=
  ((a * b + 128) / 256 + (a * b + 128)) / 256

/-- The Pillow per-channel mask blend: `BLEND(mask, dst, src)`. -/
def blendChannel (dst src m : ℕ) : ℕ :=
  mulDiv255 dst (255 - m) + mulDiv255 src m

/-- Per-pixel blend of `Image.paste(src, pos, mask)` with an RGBA mask of
value `m` (the alpha channel of the mask at that position). -/
def blendPixel (dst src : Pixel) (m : ℕ) : Pixel :=
  { r := blendChannel dst.r src.r m
    g := blendChannel dst.g src.g m
    b := blendChannel dst.b src.b m
    a := blendChannel dst.a src.a m }

/-- Pixel lookup at signed coordinates; `none` outside the raster. -/
def getPx (img : Img) (i j : ℤ) : Option Pixel :=
  if 0 ≤ i ∧ 0 ≤ j then (img.get? j.toNat).bind (fun row => row.get? i.toNat)
  else none

/-- One output row of the paste: destination row `j`, columns from `i`. -/
def pasteRowAux (src : Img) (px py : ℤ) (j : ℕ) : ℕ → List Pixel → List Pixel
  | _, [] => []
  | i, d :: ds =>
    (match getPx src ((i : ℤ) - px) ((j : ℤ) - py) with
     | none => d
     | some s => blendPixel d s s.a) :: pasteRowAux src px py j (i + 1) ds

/-- Rows of the paste from destination row `j` downward. -/
def pasteRowsAux (src : Img) (px py : ℤ) : ℕ → Img → Img
  | _, [] => []
  | j, row :: rows => pasteRowAux src px py j 0 row :: pasteRowsAux src px py (j + 1) rows

/-- Line 163 / 114: `shirt_copy.paste(resized_design, (x, y), resized_design)` —
alpha-composite `src` over `dst`, with the alpha band of `src` as the paste
mask and the top-left corner of the source at `(px, py)`; regions of `dst` not
covered by `src` are unchanged. -/
def pasteImg (dst src : Img) (px py : ℤ) : Img :=
  pasteRowsAux src px py 0 dst

/-- Every pixel of the image is fully transparent (alpha 0). -/
def TransparentImg (img : Img) : Prop :=
  ∀ row ∈ img, ∀ p ∈ row, p.a = 0

/-- Every channel of every pixel is a valid 8-bit value. -/
def ValidImg (img : Img) : Prop :=
  ∀ row ∈ img, ∀ p ∈ row, p.r ≤ 255 ∧ p.g ≤ 255 ∧ p.b ≤ 255 ∧ p.a ≤ 255

instance (img : Img) : Decidable (TransparentImg img) := by
  unfold TransparentImg; infer_instance

instance (img : Img) : Decidable (ValidImg img) := by
  unfold ValidImg; infer_instance

/-- A heap of image buffers; a buffer id is an index into the list. -/
abbrev Heap := List Img

/-- `shirt.copy()`: allocate a fresh buffer holding a copy of buffer `i`. -/
def copyBuf (h : Heap) (i : ℕ) : Heap × ℕ :=
  (h ++ [h.getD i []], h.length)

/-- In-place `paste` on buffer `dstId` of the heap. -/
def pasteBuf (h : Heap) (dstId : ℕ) (src : Img) (px py : ℤ) : Heap :=
  h.set dstId (pasteImg (h.getD dstId []) src px py)

/-- Lines 162-163: `shirt_copy = shirt.copy()` then
`shirt_copy.paste(resized_design, (x, y), resized_design)`.  Returns the
updated heap and the id of the freshly written composite buffer. -/
def compositeStep (h : Heap) (shirtId : ℕ) (design : Img) (px py : ℤ) : Heap × ℕ :=
  let (h1, copyId) := copyBuf h shirtId
  (pasteBuf h1 copyId design px py, copyId)

/-- Lines 139-141 / 90-92: the optional shirt downscale — dimensions after
`if resize_width > 0 and shirt.width > resize_width:
   new_height = int(shirt.height * (resize_width / shirt.width))
   shirt = shirt.resize((resize_width, new_height), ...)`. -/
def resizedShirtDims (sw sh rw : ℕ) : ℕ × ℕ :=
  if 0 < rw ∧ rw < sw then (rw, (ratTrunc ((sh : ℚ) * ((rw : ℚ) / (sw : ℚ)))).toNat)
  else (sw, sh)

/-- Outcome of one (design, shirt) iteration of the batch loop: the
bounding box that was used (if any) and the placement. -/
structure BatchResult where
  bboxUsed : Option Bbox
  place : Placement
deriving DecidableEq, Repr

/-- Lines 136-160 of the batch generation loop, placement part: optional
shirt resize, filename classification, cached bounding-box lookup from the
ORIGINAL uploaded bytes (`shirt_file.getvalue()`), then box placement or
full-canvas fallback on the (possibly resized) shirt. -/
def batchPlace {β : Type} (cache : List (String × Option Bbox)) (detect : β → Option Bbox)
    (origBytes : β) (shirtName : String) (dw dh sw sh rw : ℕ)
    (modelOff plainOff : ℤ) (modelPad plainPad : ℚ) :
    BatchResult × List (String × Option Bbox) :=
  let dims := resizedShirtDims sw sh rw
  let offsetPct := selectedOffset shirtName modelOff plainOff
  let paddingRatio := selectedPadding shirtName modelPad plainPad
  let res := getShirtBboxCached cache detect origBytes shirtName
  match res.1 with
  | some b => ({ bboxUsed := some b, place := placeWithBox dw dh b paddingRatio offsetPct }, res.2)
  | none => ({ bboxUsed := none, place := placeFallback dw dh dims.1 dims.2 }, res.2)

/-- The phrasing of the spec for a resized dimension: `round(design dimension × scale)`. -/
def specResizedDim (d : ℕ) (scale : ℚ) : ℤ :=
  round ((d : ℚ) * scale)

/-- The phrasing of the spec for the vertical offset: `round(box_height × offset_percent / 100)`. -/
def specYOffset (sh : ℕ) (offsetPct : ℤ) : ℤ :=
  round (((sh : ℚ) * (offsetPct : ℚ)) / 100)

theorem ratTrunc_eq_floor {q : ℚ} (h : 0 ≤ q) : ratTrunc q = ⌊q⌋ := by
  simp [ratTrunc, not_lt.mpr h]

theorem ratTrunc_le {q : ℚ} (h : 0 ≤ q) : (ratTrunc q : ℚ) ≤ q := by
  rw [ratTrunc_eq_floor h]
  exact Int.floor_le q

theorem scaleFor_nonneg (dw dh : ℕ) (b : Bbox) {p : ℚ} (hp : 0 ≤ p) :
    0 ≤ scaleFor dw dh b p := by
  apply mul_nonneg _ hp
  apply le_min (le_min _ _) zero_le_one <;> positivity

theorem scaleFor_le_left (dw dh : ℕ) (b : Bbox) {p : ℚ} (hp : 0 ≤ p) :
    scaleFor dw dh b p ≤ (b.w : ℚ) / (dw : ℚ) * p :=
  mul_le_mul_of_nonneg_right (le_trans (min_le_left _ _) (min_le_left _ _)) hp

theorem scaleFor_le_right (dw dh : ℕ) (b : Bbox) {p : ℚ} (hp : 0 ≤ p) :
    scaleFor dw dh b p ≤ (b.h : ℚ) / (dh : ℚ) * p :=
  mul_le_mul_of_nonneg_right (le_trans (min_le_left _ _) (min_le_right _ _)) hp

/-- C1 counterexample. For a 3×3 design in a 100×100 box at padding
ratio 0.9, the scale computed by the code is 0.9 (matching the claimed
formula), but the resized width computed by the code is `int(3 * 0.9) = 2`
while the claimed `round(3 × scale) = 3`: the rounding clause of the claim
is false. -/
theorem trunc_vs_round_counterexample :
    scaleFor 3 3 ⟨0, 0, 100, 100⟩ (9/10) = 9/10 ∧
    (placeWithBox 3 3 ⟨0, 0, 100, 100⟩ (9/10) 0).w = 2 ∧
    specResizedDim 3 (scaleFor 3 3 ⟨0, 0, 100, 100⟩ (9/10)) = 3 := by
  refine ⟨?_, ?_, ?_⟩
  · norm_num [scaleFor, min_def]
  · norm_num [placeWithBox, scaleFor, ratTrunc, min_def]
  · rw [specResizedDim, round_eq]
    norm_num [scaleFor, min_def, Int.floor_eq_iff]

/-- C1 (amended). For every design with positive dimensions and every
box, the scale factor equals `min(box_w/design_w, box_h/design_h, 1) × p`,
and each resized dimension is the TRUNCATION (Python `int`, here equal to
the floor since the scale is non-negative) of the design dimension times
the scale — not the nearest-integer rounding the claim states. -/
theorem resized_dims_are_truncated (dw dh : ℕ) (b : Bbox) (p : ℚ) (offsetPct : ℤ)
    (hdw : 0 < dw) (hdh : 0 < dh) (hp : 0 ≤ p) :
    scaleFor dw dh b p =
      min (min ((b.w : ℚ) / (dw : ℚ)) ((b.h : ℚ) / (dh : ℚ))) 1 * p ∧
    (placeWithBox dw dh b p offsetPct).w = ⌊(dw : ℚ) * scaleFor dw dh b p⌋ ∧
    (placeWithBox dw dh b p offsetPct).h = ⌊(dh : ℚ) * scaleFor dw dh b p⌋ := by
  have hw : 0 ≤ (dw : ℚ) * scaleFor dw dh b p :=
    mul_nonneg (by positivity) (scaleFor_nonneg _ _ _ hp)
  have hh : 0 ≤ (dh : ℚ) * scaleFor dw dh b p :=
    mul_nonneg (by positivity) (scaleFor_nonneg _ _ _ hp)
  exact ⟨rfl, ratTrunc_eq_floor hw, ratTrunc_eq_floor hh⟩

/-- C1 witness. Concrete instance of `resized_dims_are_truncated`. -/
theorem resized_dims_are_truncated_witness :
    (0 : ℕ) < 300 ∧ (0 : ℕ) < 300 ∧ (0 : ℚ) ≤ 1/2 ∧
    (scaleFor 300 300 ⟨100, 100, 600, 400⟩ (1/2) =
      min (min ((600 : ℚ) / 300) ((400 : ℚ) / 300)) 1 * (1/2) ∧
    (placeWithBox 300 300 ⟨100, 100, 600, 400⟩ (1/2) 0).w =
      ⌊(300 : ℚ) * scaleFor 300 300 ⟨100, 100, 600, 400⟩ (1/2)⌋ ∧
    (placeWithBox 300 300 ⟨100, 100, 600, 400⟩ (1/2) 0).h =
      ⌊(300 : ℚ) * scaleFor 300 300 ⟨100, 100, 600, 400⟩ (1/2)⌋) :=
  ⟨by norm_num, by norm_num, by norm_num,
    resized_dims_are_truncated 300 300 ⟨100, 100, 600, 400⟩ (1/2) 0
      (by norm_num) (by norm_num) (by norm_num)⟩

/-- C2. For every detected box, positive design dimensions and padding
ratio `p ∈ (0,1]`, the resized width never exceeds `box_w · p`, the resized
height never exceeds `box_h · p`, and the scale factor never exceeds 1. -/
theorem resized_dims_never_exceed (dw dh : ℕ) (b : Bbox) (p : ℚ) (offsetPct : ℤ)
    (hdw : 0 < dw) (hdh : 0 < dh) (hp0 : 0 < p) (hp1 : p ≤ 1) :
    ((placeWithBox dw dh b p offsetPct).w : ℚ) ≤ (b.w : ℚ) * p ∧
    ((placeWithBox dw dh b p offsetPct).h : ℚ) ≤ (b.h : ℚ) * p ∧
    scaleFor dw dh b p ≤ 1 := by
  have hps : 0 ≤ scaleFor dw dh b p := scaleFor_nonneg _ _ _ hp0.le
  have hdw' : (0 : ℚ) < (dw : ℚ) := by exact_mod_cast hdw
  have hdh' : (0 : ℚ) < (dh : ℚ) := by exact_mod_cast hdh
  refine ⟨?_, ?_, mul_le_one (min_le_right _ _) hp0.le hp1⟩
  · calc ((placeWithBox dw dh b p offsetPct).w : ℚ)
        ≤ (dw : ℚ) * scaleFor dw dh b p := ratTrunc_le (mul_nonneg hdw'.le hps)
      _ ≤ (dw : ℚ) * ((b.w : ℚ) / (dw : ℚ) * p) :=
        mul_le_mul_of_nonneg_left (scaleFor_le_left _ _ _ hp0.le) hdw'.le
      _ = (b.w : ℚ) * p := by field_simp
  · calc ((placeWithBox dw dh b p offsetPct).h : ℚ)
        ≤ (dh : ℚ) * scaleFor dw dh b p := ratTrunc_le (mul_nonneg hdh'.le hps)
      _ ≤ (dh : ℚ) * ((b.h : ℚ) / (dh : ℚ) * p) :=
        mul_le_mul_of_nonneg_left (scaleFor_le_right _ _ _ hp0.le) hdh'.le
      _ = (b.h : ℚ) * p := by field_simp

/-- C2 witness. Concrete instance of `resized_dims_never_exceed`. -/
theorem resized_dims_never_exceed_witness :
    (0 : ℕ) < 300 ∧ (0 : ℕ) < 300 ∧ (0 : ℚ) < 1/2 ∧ (1/2 : ℚ) ≤ 1 ∧
    (((placeWithBox 300 300 ⟨100, 100, 600, 400⟩ (1/2) 24).w : ℚ) ≤ (600 : ℚ) * (1/2) ∧
    ((placeWithBox 300 300 ⟨100, 100, 600, 400⟩ (1/2) 24).h : ℚ) ≤ (400 : ℚ) * (1/2) ∧
    scaleFor 300 300 ⟨100, 100, 600, 400⟩ (1/2) ≤ 1) :=
  ⟨by norm_num, by norm_num, by norm_num, by norm_num,
    resized_dims_never_exceed 300 300 ⟨100, 100, 600, 400⟩ (1/2) 24
      (by norm_num) (by norm_num) (by norm_num) (by norm_num)⟩

/-- C3 counterexample. For a box of height 10 at the origin and a 37%
offset, the code computes `y = 0 + int(10·37/100) = int(3.7) = 3`, while the
claimed `box_top + round(10·37/100) = 4`. -/
theorem vertical_round_counterexample :
    (placeWithBox 1 1 ⟨0, 0, 10, 10⟩ 1 37).y = 3 ∧
    (((0 : ℕ) : ℤ) + specYOffset 10 37 = 4) := by
  constructor
  · norm_num [placeWithBox, yOffsetOf, ratTrunc]
  · rw [specYOffset, round_eq]
    norm_num [Int.floor_eq_iff]

/-- C3 (amended). The vertical position is
`box_top + int(box_height × offset_percent / 100)` with Python `int`
truncation, not nearest-integer rounding; an offset of 0% still puts the
top edge of the design exactly at the top edge of the box, and an offset of 50%
shifts it down by `box_height div 2` (the floor of half the box height). -/
theorem vertical_offset_truncated (dw dh : ℕ) (b : Bbox) (p : ℚ) (offsetPct : ℤ)
    (hlo : -50 ≤ offsetPct) (hhi : offsetPct ≤ 100) :
    (placeWithBox dw dh b p offsetPct).y =
      (b.y : ℤ) + ratTrunc (((b.h : ℚ) * (offsetPct : ℚ)) / 100) ∧
    (placeWithBox dw dh b p 0).y = (b.y : ℤ) ∧
    (placeWithBox dw dh b p 50).y = (b.y : ℤ) + ((b.h / 2 : ℕ) : ℤ) := by
  refine ⟨rfl, ?_, ?_⟩
  · show (b.y : ℤ) + yOffsetOf b.h 0 = (b.y : ℤ)
    simp [yOffsetOf, ratTrunc]
  · show (b.y : ℤ) + yOffsetOf b.h 50 = (b.y : ℤ) + ((b.h / 2 : ℕ) : ℤ)
    congr 1
    rw [yOffsetOf]
    have he : ((b.h : ℚ) * ((50 : ℤ) : ℚ)) / 100 = (b.h : ℚ) / 2 := by push_cast; ring
    rw [he, ratTrunc]
    have hnn : ¬((b.h : ℚ) / 2 < 0) := not_lt.mpr (by positivity)
    rw [if_neg hnn]
    have hfl := Rat.floor_intCast_div_natCast (b.h : ℤ) 2
    push_cast at hfl ⊢
    omega

/-- C3 witness. Concrete instance of `vertical_offset_truncated`. -/
theorem vertical_offset_truncated_witness :
    (-50 : ℤ) ≤ 38 ∧ (38 : ℤ) ≤ 100 ∧
    ((placeWithBox 300 300 ⟨100, 100, 600, 401⟩ (1/2) 38).y =
      (100 : ℤ) + ratTrunc (((401 : ℚ) * ((38 : ℤ) : ℚ)) / 100) ∧
    (placeWithBox 300 300 ⟨100, 100, 600, 401⟩ (1/2) 0).y = (100 : ℤ) ∧
    (placeWithBox 300 300 ⟨100, 100, 600, 401⟩ (1/2) 50).y = (100 : ℤ) + ((401 / 2 : ℕ) : ℤ)) :=
  ⟨by norm_num, by norm_num,
    vertical_offset_truncated 300 300 ⟨100, 100, 600, 401⟩ (1/2) 38
      (by norm_num) (by norm_num)⟩

/-- C8. The worked scenario of the spec: box (100,100,600,400), design
300×300, padding ratio 0.5 — scale `min(600/300, 400/300, 1) × 0.5 = 0.5`,
resized design 150×150, `x = 100 + (600−150)//2 = 325`, and
`y = 100 +` the computed vertical offset, for every offset percentage. -/
theorem scenario_shirt_800x600 :
    scaleFor 300 300 ⟨100, 100, 600, 400⟩ (1/2) =
      min (min ((600 : ℚ) / 300) ((400 : ℚ) / 300)) 1 * (1/2) ∧
    scaleFor 300 300 ⟨100, 100, 600, 400⟩ (1/2) = 1/2 ∧
    ∀ offsetPct : ℤ, placeWithBox 300 300 ⟨100, 100, 600, 400⟩ (1/2) offsetPct =
      { x := 325, y := 100 + yOffsetOf 400 offsetPct, w := 150, h := 150 } := by
  have hs : scaleFor 300 300 ⟨100, 100, 600, 400⟩ (1/2) = 1/2 := by
    norm_num [scaleFor, min_def]
  refine ⟨rfl, hs, fun offsetPct => ?_⟩
  have ht : ratTrunc (((300 : ℕ) : ℚ) * scaleFor 300 300 ⟨100, 100, 600, 400⟩ (1/2)) = 150 := by
    rw [hs]; norm_num [ratTrunc]
  simp only [placeWithBox, ht, Placement.mk.injEq]
  refine ⟨?_, ?_, trivial, trivial⟩
  · decide
  · norm_num

/-- C9. Classification is a substring match on the lowercased filename:
"model_red.png" is classified as a model shirt and receives the model
padding ratio and vertical offset, while "plain_blue.png" is classified as
plain and receives the plain parameters, whatever the slider values are. -/
theorem filename_classification (modelPad plainPad : ℚ) (modelOff plainOff : ℤ) :
    isModel "model_red.png" = true ∧
    isModel "plain_blue.png" = false ∧
    selectedPadding "model_red.png" modelPad plainPad = modelPad ∧
    selectedOffset "model_red.png" modelOff plainOff = modelOff ∧
    selectedPadding "plain_blue.png" modelPad plainPad = plainPad ∧
    selectedOffset "plain_blue.png" modelOff plainOff = plainOff := by
  have hm : isModel "model_red.png" = true := by decide
  have hp : isModel "plain_blue.png" = false := by decide
  exact ⟨hm, hp, by simp [selectedPadding, hm], by simp [selectedOffset, hm],
    by simp [selectedPadding, hp], by simp [selectedOffset, hp]⟩

/-- C7. If a shirt filename is already a key of the session cache, then
`get_shirt_bbox_cached` returns the cached box for that name no matter
which bytes (and even which detection pipeline) the call passes, and it
leaves the cache unchanged — two different uploads sharing a name receive
the same possibly stale box. -/
theorem cache_hit_ignores_bytes {β : Type} (cache : List (String × Option Bbox))
    (shirtName : String) (kv : String × Option Bbox)
    (hhit : cache.find? (fun e => e.1 == shirtName) = some kv)
    (detect1 detect2 : β → Option Bbox) (bytes1 bytes2 : β) :
    (getShirtBboxCached cache detect1 bytes1 shirtName).1 = kv.2 ∧
    (getShirtBboxCached cache detect2 bytes2 shirtName).1 = kv.2 ∧
    (getShirtBboxCached cache detect1 bytes1 shirtName).2 = cache ∧
    (getShirtBboxCached cache detect2 bytes2 shirtName).2 = cache := by
  simp [getShirtBboxCached, hhit]

/-- C7 witness. Concrete instance of `cache_hit_ignores_bytes`: two
different byte payloads under the name "shirt.png" both get the cached box. -/
theorem cache_hit_ignores_bytes_witness :
    [("shirt.png", some (⟨1, 2, 3, 4⟩ : Bbox))].find?
        (fun e => e.1 == "shirt.png") = some ("shirt.png", some ⟨1, 2, 3, 4⟩) ∧
    ((getShirtBboxCached [("shirt.png", some ⟨1, 2, 3, 4⟩)]
        (fun b : List ℕ => if b = [0] then some ⟨9, 9, 9, 9⟩ else none)
        [0] "shirt.png").1 = some (⟨1, 2, 3, 4⟩ : Bbox) ∧
    (getShirtBboxCached [("shirt.png", some ⟨1, 2, 3, 4⟩)]
        (fun b : List ℕ => if b = [0] then some ⟨9, 9, 9, 9⟩ else none)
        [1] "shirt.png").1 = some (⟨1, 2, 3, 4⟩ : Bbox) ∧
    (getShirtBboxCached [("shirt.png", some ⟨1, 2, 3, 4⟩)]
        (fun b : List ℕ => if b = [0] then some ⟨9, 9, 9, 9⟩ else none)
        [0] "shirt.png").2 = [("shirt.png", some ⟨1, 2, 3, 4⟩)] ∧
    (getShirtBboxCached [("shirt.png", some ⟨1, 2, 3, 4⟩)]
        (fun b : List ℕ => if b = [0] then some ⟨9, 9, 9, 9⟩ else none)
        [1] "shirt.png").2 = [("shirt.png", some ⟨1, 2, 3, 4⟩)]) :=
  ⟨by decide,
    cache_hit_ignores_bytes [("shirt.png", some ⟨1, 2, 3, 4⟩)] "shirt.png"
      ("shirt.png", some ⟨1, 2, 3, 4⟩) (by decide)
      (fun b : List ℕ => if b = [0] then some ⟨9, 9, 9, 9⟩ else none)
      (fun b : List ℕ => if b = [0] then some ⟨9, 9, 9, 9⟩ else none) [0] [1]⟩

/-- C4. The detector returns no box exactly when the contour list is
empty, and in that case the batch loop (empty cache, no shirt resize)
places the design unscaled and centered on the full shirt canvas:
`x = (shirt_w − design_w) // 2`, `y = (shirt_h − design_h) // 2`. -/
theorem no_contour_fallback {β : Type} (cs : List Contour) (bytes : β) (shirtName : String)
    (dw dh sw sh : ℕ) (modelOff plainOff : ℤ) (modelPad plainPad : ℚ)
    (hnone : detectBbox cs = none) :
    cs = [] ∧
    (∀ cs' : List Contour, cs' ≠ [] → detectBbox cs' ≠ none) ∧
    (batchPlace [] (fun _ : β => detectBbox cs) bytes shirtName dw dh sw sh 0
        modelOff plainOff modelPad plainPad).1 =
      { bboxUsed := none
        place := { x := Int.fdiv ((sw : ℤ) - (dw : ℤ)) 2
                   y := Int.fdiv ((sh : ℤ) - (dh : ℤ)) 2
                   w := (dw : ℤ), h := (dh : ℤ) } } := by
  refine ⟨?_, ?_, ?_⟩
  · cases cs with
    | nil => rfl
    | cons c rest => simp [detectBbox, argmaxContour] at hnone
  · intro cs' hne
    cases cs' with
    | nil => exact absurd rfl hne
    | cons c rest => simp [detectBbox, argmaxContour]
  · simp [batchPlace, getShirtBboxCached, hnone, placeFallback, resizedShirtDims]

/-- C4 witness. Concrete instance of `no_contour_fallback` with an
empty contour list, a 50×60 design and a 200×300 shirt. -/
theorem no_contour_fallback_witness :
    detectBbox [] = none ∧
    (([] : List Contour) = [] ∧
    (∀ cs' : List Contour, cs' ≠ [] → detectBbox cs' ≠ none) ∧
    (batchPlace [] (fun _ : Unit => detectBbox []) () "plain.png" 50 60 200 300 0
        38 24 (9/20) (9/20)).1 =
      { bboxUsed := none
        place := { x := Int.fdiv ((200 : ℤ) - (50 : ℤ)) 2
                   y := Int.fdiv ((300 : ℤ) - (60 : ℤ)) 2
                   w := (50 : ℤ), h := (60 : ℤ) } }) :=
  ⟨rfl, no_contour_fallback [] () "plain.png" 50 60 200 300 38 24 (9/20) (9/20) rfl⟩

/-- C10. The bounding box used for placement comes from the original
uploaded bytes and is the same for every value of the shirt resize-width
control; when a box is detected, the whole placement (position and resized
design dimensions) is also identical across resize widths — it is computed
at the original, un-resized detection resolution. -/
theorem bbox_independent_of_resize {β : Type} (cache : List (String × Option Bbox))
    (detect : β → Option Bbox) (origBytes : β) (shirtName : String)
    (dw dh sw sh rw1 rw2 : ℕ) (modelOff plainOff : ℤ) (modelPad plainPad : ℚ)
    (b : Bbox)
    (hsome : (batchPlace cache detect origBytes shirtName dw dh sw sh rw1
        modelOff plainOff modelPad plainPad).1.bboxUsed = some b) :
    (batchPlace cache detect origBytes shirtName dw dh sw sh rw1
        modelOff plainOff modelPad plainPad).1.bboxUsed =
      (batchPlace cache detect origBytes shirtName dw dh sw sh rw2
        modelOff plainOff modelPad plainPad).1.bboxUsed ∧
    (batchPlace cache detect origBytes shirtName dw dh sw sh rw1
        modelOff plainOff modelPad plainPad).1 =
      (batchPlace cache detect origBytes shirtName dw dh sw sh rw2
        modelOff plainOff modelPad plainPad).1 := by
  have hcases := hsome
  rw [batchPlace] at hcases
  rcases hlook : (getShirtBboxCached cache detect origBytes shirtName).1 with _ | bb
  · rw [hlook] at hcases
    simp at hcases
  · constructor <;> · rw [batchPlace, batchPlace, hlook]

/-- C10 witness. Concrete instance of `bbox_independent_of_resize`:
resize widths 0 (off) and 400 give the same box and placement. -/
theorem bbox_independent_of_resize_witness :
    (batchPlace [] (fun _ : Unit => some ⟨100, 100, 600, 400⟩) () "model.png"
        300 300 800 600 0 38 24 (9/20) (9/20)).1.bboxUsed = some (⟨100, 100, 600, 400⟩ : Bbox) ∧
    ((batchPlace [] (fun _ : Unit => some ⟨100, 100, 600, 400⟩) () "model.png"
        300 300 800 600 0 38 24 (9/20) (9/20)).1.bboxUsed =
      (batchPlace [] (fun _ : Unit => some ⟨100, 100, 600, 400⟩) () "model.png"
        300 300 800 600 400 38 24 (9/20) (9/20)).1.bboxUsed ∧
    (batchPlace [] (fun _ : Unit => some ⟨100, 100, 600, 400⟩) () "model.png"
        300 300 800 600 0 38 24 (9/20) (9/20)).1 =
      (batchPlace [] (fun _ : Unit => some ⟨100, 100, 600, 400⟩) () "model.png"
        300 300 800 600 400 38 24 (9/20) (9/20)).1) :=
  ⟨by rfl,
    bbox_independent_of_resize [] (fun _ : Unit => some ⟨100, 100, 600, 400⟩) () "model.png"
      300 300 800 600 0 400 38 24 (9/20) (9/20) ⟨100, 100, 600, 400⟩ (by rfl)⟩

theorem mulDiv255_zero (a : ℕ) : mulDiv255 a 0 = 0 := by
  simp [mulDiv255]

theorem mulDiv255_255 {a : ℕ} (h : a ≤ 255) : mulDiv255 a 255 = a := by
  unfold mulDiv255
  omega

theorem blendPixel_mask_zero {d : Pixel} (s : Pixel)
    (h : d.r ≤ 255 ∧ d.g ≤ 255 ∧ d.b ≤ 255 ∧ d.a ≤ 255) :
    blendPixel d s 0 = d := by
  obtain ⟨h1, h2, h3, h4⟩ := h
  simp [blendPixel, blendChannel, mulDiv255_zero,
    mulDiv255_255 h1, mulDiv255_255 h2, mulDiv255_255 h3, mulDiv255_255 h4]

theorem getPx_mem {img : Img} {i j : ℤ} {p : Pixel} (h : getPx img i j = some p) :
    ∃ row ∈ img, p ∈ row := by
  unfold getPx at h
  split at h
  · rcases Option.bind_eq_some.mp h with ⟨row, hrow, hp⟩
    exact ⟨row, List.get?_mem hrow, List.get?_mem hp⟩
  · exact absurd h (by simp)

theorem pasteRowAux_transparent {src : Img} (hT : TransparentImg src)
    (px py : ℤ) (j : ℕ) :
    ∀ (i : ℕ) (row : List Pixel),
      (∀ p ∈ row, p.r ≤ 255 ∧ p.g ≤ 255 ∧ p.b ≤ 255 ∧ p.a ≤ 255) →
      pasteRowAux src px py j i row = row := by
  intro i row
  induction row generalizing i with
  | nil => intro _; rfl
  | cons d ds ih =>
    intro hV
    rw [pasteRowAux]
    congr 1
    · cases hgp : getPx src ((i : ℤ) - px) ((j : ℤ) - py) with
      | none => simp [hgp]
      | some s =>
        simp only [hgp]
        obtain ⟨row', hrow', hs⟩ := getPx_mem hgp
        rw [hT row' hrow' s hs]
        exact blendPixel_mask_zero s (hV d (List.mem_cons_self d ds))
    · exact ih (i + 1) (fun p hp => hV p (List.mem_cons_of_mem d hp))

theorem pasteRowsAux_transparent {src : Img} (hT : TransparentImg src) (px py : ℤ) :
    ∀ (j : ℕ) (rows : Img), ValidImg rows → pasteRowsAux src px py j rows = rows := by
  intro j rows
  induction rows generalizing j with
  | nil => intro _; rfl
  | cons row rest ih =>
    intro hV
    rw [pasteRowsAux]
    congr 1
    · exact pasteRowAux_transparent hT px py j 0 row (hV row (List.mem_cons_self row rest))
    · exact ih (j + 1) (fun r hr => hV r (List.mem_cons_of_mem row hr))

/-- C5. Compositing a fully transparent design (every alpha 0) onto a
shirt whose pixels are valid 8-bit RGBA values leaves every pixel of the
shirt unchanged: the paste is pixel-identical to the original. -/
theorem transparent_paste_identity (shirt design : Img) (px py : ℤ)
    (hT : TransparentImg design) (hV : ValidImg shirt) :
    pasteImg shirt design px py = shirt :=
  pasteRowsAux_transparent hT px py 0 shirt hV

/-- C5 witness. A concrete 2×2 shirt with a 1×1 fully transparent
design pasted at the origin comes back pixel-identical. -/
theorem transparent_paste_identity_witness :
    TransparentImg [[⟨200, 200, 200, 0⟩]] ∧
    ValidImg [[⟨10, 20, 30, 255⟩, ⟨0, 0, 0, 0⟩], [⟨255, 255, 255, 255⟩, ⟨1, 2, 3, 4⟩]] ∧
    pasteImg [[⟨10, 20, 30, 255⟩, ⟨0, 0, 0, 0⟩], [⟨255, 255, 255, 255⟩, ⟨1, 2, 3, 4⟩]]
        [[⟨200, 200, 200, 0⟩]] 0 0 =
      [[⟨10, 20, 30, 255⟩, ⟨0, 0, 0, 0⟩], [⟨255, 255, 255, 255⟩, ⟨1, 2, 3, 4⟩]] :=
  ⟨by decide, by decide,
    transparent_paste_identity
      [[⟨10, 20, 30, 255⟩, ⟨0, 0, 0, 0⟩], [⟨255, 255, 255, 255⟩, ⟨1, 2, 3, 4⟩]]
      [[⟨200, 200, 200, 0⟩]] 0 0 (by decide) (by decide)⟩

/-- C6. Lines 162-163 operate on a fresh copy: after
`shirt_copy = shirt.copy(); shirt_copy.paste(...)`, the original shirt
buffer still holds its original raster, and the new buffer holds the
design alpha-composited over the raster of the shirt. -/
theorem composite_leaves_shirt_untouched (heap : Heap) (shirtId : ℕ) (design : Img)
    (px py : ℤ) (hlt : shirtId < heap.length) :
    ((compositeStep heap shirtId design px py).1).get? shirtId = heap.get? shirtId ∧
    ((compositeStep heap shirtId design px py).1).get?
        ((compositeStep heap shirtId design px py).2) =
      some (pasteImg (heap.getD shirtId []) design px py) := by
  have hc : (heap ++ [heap.getD shirtId []]).get? heap.length =
      some (heap.getD shirtId []) := by simp
  have hgd : (heap ++ [heap.getD shirtId []]).getD heap.length [] = heap.getD shirtId [] := by
    simp [List.getD, hc]
  constructor
  · show ((heap ++ [heap.getD shirtId []]).set heap.length _).get? shirtId = heap.get? shirtId
    rw [List.get?_set_ne _ _ (Nat.ne_of_gt hlt), List.get?_append hlt]
  · show ((heap ++ [heap.getD shirtId []]).set heap.length _).get? heap.length = _
    rw [List.get?_set_eq_of_lt _ (by simp), hgd]

/-- C6 witness. A concrete two-buffer heap: compositing onto a copy of
buffer 0 leaves the raster of buffer 0 unchanged and writes the composite into
the fresh buffer. -/
theorem composite_leaves_shirt_untouched_witness :
    (0 : ℕ) < ([[[⟨7, 8, 9, 255⟩]], [[⟨1, 1, 1, 255⟩]]] : Heap).length ∧
    (((compositeStep [[[⟨7, 8, 9, 255⟩]], [[⟨1, 1, 1, 255⟩]]] 0 [[⟨5, 5, 5, 0⟩]] 0 0).1).get? 0 =
        ([[[⟨7, 8, 9, 255⟩]], [[⟨1, 1, 1, 255⟩]]] : Heap).get? 0 ∧
    ((compositeStep [[[⟨7, 8, 9, 255⟩]], [[⟨1, 1, 1, 255⟩]]] 0 [[⟨5, 5, 5, 0⟩]] 0 0).1).get?
        ((compositeStep [[[⟨7, 8, 9, 255⟩]], [[⟨1, 1, 1, 255⟩]]] 0 [[⟨5, 5, 5, 0⟩]] 0 0).2) =
      some (pasteImg (([[[⟨7, 8, 9, 255⟩]], [[⟨1, 1, 1, 255⟩]]] : Heap).getD 0 [])
        [[⟨5, 5, 5, 0⟩]] 0 0)) :=
  ⟨by decide,
    composite_leaves_shirt_untouched [[[⟨7, 8, 9, 255⟩]], [[⟨1, 1, 1, 255⟩]]] 0
      [[⟨5, 5, 5, 0⟩]] 0 0 (by decide)⟩

end Mockup
